import Mathlib

/-!
Verification of the pulse-monitoring-service core: the check store
(src/core/db.js), the duration parser and the status evaluation engine
(src/core/scheduler.js).  Checks are rows of the sqlite table; the store
is modelled as a list of rows, SQL UPDATE ... WHERE as a map over the
rows matching the key, and the first row returned by a .get() lookup as
List.find?.  Timestamps are epoch numbers (seconds in the table,
milliseconds inside the engine), nullable columns are Option.
-/

namespace Pulse

/-- A row of the checks table (src/core/db.js, setup): uuid is the public
token, status is one of new, up, down, failed, maintenance, last_ping_at
and last_ping_duration_ms are nullable, created_at is NOT NULL. -/
structure Check where
  id : Nat
  uuid : String
  name : String
  schedule : String
  grace : String
  status : String
  last_ping_at : Option Nat
  last_ping_duration_ms : Option Nat
  consecutive_down_count : Nat
  created_at : Nat
  last_error : Option String
deriving Repr, DecidableEq

/-- Truthiness of a nullable integer column as JavaScript evaluates it:
null and 0 are falsy, every other number is truthy. -/
def truthyNat : Option Nat → Bool
  | none => false
  | some n => n != 0

/-- Models the regular expression match in parseDuration
(src/core/scheduler.js): group 1 is the maximal nonempty digit prefix of
the string, group 2 the remaining suffix, and the match succeeds exactly
when that suffix is one of the five unit alternatives, so that the two
groups cover the whole string. -/
def matchDuration (s : String) : Option (List Char × List Char) :=
  let digits := s.toList.takeWhile (fun ch => ch.isDigit)
  let rest := s.toList.dropWhile (fun ch => ch.isDigit)
  if digits.isEmpty then none
  else if rest == ['m', 's'] || rest == ['s'] || rest == ['m'] || rest == ['h'] || rest == ['d'] then
    some (digits, rest)
  else none

/-- Models parseInt(digits, 10) applied to the all-digit capture group. -/
def digitsVal (ds : List Char) : Nat :=
  ds.foldl (fun n ch => n * 10 + (ch.toNat - 48)) 0

/-- parseDuration (src/core/scheduler.js): a string matching the duration
pattern yields its value scaled by the switch over the unit capture
group (written here as its character list), anything else yields 0. -/
def parseDuration (s : String) : Nat :=
  match matchDuration s with
  | none => 0
  | some (ds, us) =>
    let value := digitsVal ds
    match us with
    | ['m', 's'] => value
    | ['s'] => value * 1000
    | ['m'] => value * 60 * 1000
    | ['h'] => value * 60 * 60 * 1000
    | ['d'] => value * 24 * 60 * 60 * 1000
    | _ => 0

/-- The typeof guard on parseDuration's argument: a non-string input
(modelled as none) returns 0 before the pattern is consulted. -/
def parseDurationJS : Option String → Nat
  | none => 0
  | some s => parseDuration s

/-- The unit factors of the duration pattern, spec side: the number of
milliseconds denoted by each unit suffix. -/
def unitFactor : String → Nat
  | "ms" => 1
  | "s" => 1000
  | "m" => 60000
  | "h" => 3600000
  | "d" => 86400000
  | _ => 0

/-- The five unit suffixes accepted by the duration pattern, as the
character lists of their strings. -/
def unitSuffixes : List (List Char) := [['m', 's'], ['s'], ['m'], ['h'], ['d']]

/-- JavaScript's last_ping_at * 1000: null times 1000 collapses to 0
(falsy), a number is scaled from seconds to milliseconds. -/
def lastPingMs : Option Nat → Nat
  | none => 0
  | some v => v * 1000

/-- The reference time of runStatusChecks (src/core/scheduler.js): for a
check whose status is new with a truthy created_at it is the creation
time, otherwise it is the last ping time, both scaled to milliseconds. -/
def referenceTime (c : Check) : Nat :=
  if c.status == "new" && c.created_at != 0 then c.created_at * 1000
  else lastPingMs c.last_ping_at

/-- The deadline of a check: reference time plus parsed schedule plus
parsed grace, in milliseconds. -/
def deadline (c : Check) : Nat :=
  referenceTime c + parseDuration c.schedule + parseDuration c.grace

/-- The overdue test of runStatusChecks: a check with no reference time
is skipped (not overdue); otherwise it is overdue when now exceeds the
deadline. -/
def isOverdue (c : Check) (now : Nat) : Bool :=
  if referenceTime c == 0 then false
  else decide (deadline c < now)

/-- getCheckByUuid (src/core/db.js): the first row whose uuid column
matches the token. -/
def getCheckByUuid (s : List Check) (u : String) : Option Check :=
  s.find? (fun c => c.uuid == u)

/-- queries.getById: the first row whose id column matches. -/
def getById (s : List Check) (i : Nat) : Option Check :=
  s.find? (fun c => c.id == i)

/-- queries.getAllActive: every row whose status is not maintenance. -/
def getAllActive (s : List Check) : List Check :=
  s.filter (fun c => c.status != "maintenance")

/-- The row update of queries.recordPing: status up, last_ping_at now,
last_ping_duration_ms as supplied, counter 0, last_error NULL. -/
def pingUpdate (now : Nat) (dur : Option Nat) (c : Check) : Check :=
  { c with status := "up", last_ping_at := some now,
           last_ping_duration_ms := dur, consecutive_down_count := 0,
           last_error := none }

/-- recordPing (src/core/db.js): look the check up by token; not found
returns null; a check in maintenance is returned unchanged with no
write; otherwise every row with that uuid is updated and the updated
record is returned when a row was changed. -/
def recordPing (s : List Check) (u : String) (dur : Option Nat) (now : Nat) :
    List Check × Option Check :=
  match getCheckByUuid s u with
  | none => (s, none)
  | some c =>
    if c.status == "maintenance" then (s, some c)
    else
      let s2 := s.map (fun r => if r.uuid == u then pingUpdate now dur r else r)
      (s2, if s.any (fun r => r.uuid == u) then getCheckByUuid s2 u else none)

/-- The row update of queries.recordFailure: status failed, last_ping_at
now, last_error as supplied, counter 0. -/
def failUpdate (now : Nat) (reason : Option String) (c : Check) : Check :=
  { c with status := "failed", last_ping_at := some now,
           last_error := reason, consecutive_down_count := 0 }

/-- recordFailure (src/core/db.js): unconditionally update every row
with the token, returning the updated record when a row was changed. -/
def recordFailure (s : List Check) (u : String) (reason : Option String) (now : Nat) :
    List Check × Option Check :=
  let s2 := s.map (fun r => if r.uuid == u then failUpdate now reason r else r)
  (s2, if s.any (fun r => r.uuid == u) then getCheckByUuid s2 u else none)

/-- The row update of queries.setDown: status down and the consecutive
down counter incremented by one. -/
def setDown (c : Check) : Check :=
  { c with status := "down", consecutive_down_count := c.consecutive_down_count + 1 }

/-- setCheckDown (src/core/db.js): update every row with the internal
id, returning the updated record when a row was changed. -/
def setCheckDown (s : List Check) (i : Nat) : List Check × Option Check :=
  let s2 := s.map (fun r => if r.id == i then setDown r else r)
  (s2, if s.any (fun r => r.id == i) then getById s2 i else none)

/-- The newStatus expression of toggleMaintenance (src/core/db.js): a
check in maintenance leaves it with status up when last_ping_at is
truthy and new otherwise; any other check enters maintenance. -/
def toggleTarget (c : Check) : String :=
  if c.status == "maintenance"
  then (if truthyNat c.last_ping_at then "up" else "new")
  else "maintenance"

/-- toggleMaintenance (src/core/db.js): look the check up by token, pick
the new status as in toggleTarget, and write only the status column. -/
def toggleMaintenance (s : List Check) (u : String) : List Check × Option Check :=
  match getCheckByUuid s u with
  | none => (s, none)
  | some c =>
    let s2 := s.map (fun r => if r.uuid == u then { r with status := toggleTarget c } else r)
    (s2, getCheckByUuid s2 u)

/-- runStatusChecks (src/core/scheduler.js): load the snapshot of
non-maintenance checks once, then for each snapshot check that is
overdue and not already down issue the setCheckDown write against the
evolving store. -/
def runStatusChecks (s : List Check) (now : Nat) : List Check :=
  (getAllActive s).foldl
    (fun acc c =>
      if isOverdue c now && c.status != "down" then (setCheckDown acc c.id).1 else acc)
    s

/-- The per-check semantics of one engine cycle, to be proved equal to
runStatusChecks when ids are unique: a loaded (non-maintenance) check
that is overdue and not already down is marked down, every other check
is untouched. -/
def stepCheck (now : Nat) (c : Check) : Check :=
  if (c.status != "maintenance") && (isOverdue c now && c.status != "down")
  then setDown c else c

/-- The action of the whole engine cycle on a single row of the store:
each snapshot check in turn either rewrites the row (when that check
fired and targets this row's id) or leaves it alone. -/
def rowFold (now : Nat) (todo : List Check) (r : Check) : Check :=
  todo.foldl
    (fun row c =>
      if (isOverdue c now && c.status != "down") && (row.id == c.id) then setDown row else row)
    r

theorem setDown_id (r : Check) : (setDown r).id = r.id := rfl

theorem setCheckDown_fst (s : List Check) (i : Nat) :
    (setCheckDown s i).1 = s.map (fun r => if r.id == i then setDown r else r) := rfl

theorem rowFold_cons (now : Nat) (c : Check) (cs : List Check) (r : Check) :
    rowFold now (c :: cs) r
      = rowFold now cs
          (if (isOverdue c now && c.status != "down") && (r.id == c.id) then setDown r else r) := rfl

/-- The engine's fold over the snapshot, with an arbitrary snapshot list
and an arbitrary starting store, acts independently on every row of the
store. -/
theorem engine_fold_rows (now : Nat) (todo : List Check) : ∀ st : List Check,
    todo.foldl
        (fun acc c =>
          if isOverdue c now && c.status != "down" then (setCheckDown acc c.id).1 else acc) st
      = st.map (fun r => rowFold now todo r) := by
  induction todo with
  | nil =>
    intro st
    simp [rowFold]
  | cons c cs ih =>
    intro st
    rw [List.foldl_cons]
    by_cases h : (isOverdue c now && c.status != "down") = true
    · rw [if_pos h, ih, setCheckDown_fst, List.map_map]
      have hfun : ((fun r => rowFold now cs r) ∘ fun r => if r.id == c.id then setDown r else r)
          = fun r => rowFold now (c :: cs) r := by
        funext r
        show rowFold now cs (if r.id == c.id then setDown r else r)
            = rowFold now (c :: cs) r
        rw [rowFold_cons]
        by_cases hr : (r.id == c.id) = true
        · rw [if_pos hr, if_pos (by simp [h, hr])]
        · rw [if_neg hr, if_neg (by simp [hr])]
      rw [hfun]
    · rw [if_neg h, ih]
      have hb : (isOverdue c now && c.status != "down") = false := by
        cases hval : (isOverdue c now && c.status != "down") with
        | false => rfl
        | true => exact absurd hval h
      have hfun : (fun r => rowFold now cs r) = fun r => rowFold now (c :: cs) r := by
        funext r
        rw [rowFold_cons, hb]
        simp
      rw [hfun]

/-- Snapshot checks whose id differs from the row's id never act on the
row, so rowFold only sees the id-matching part of the snapshot. -/
theorem rowFold_filter (now : Nat) (todo : List Check) : ∀ r : Check,
    rowFold now todo r = rowFold now (todo.filter (fun c => r.id == c.id)) r := by
  induction todo with
  | nil => intro r; rfl
  | cons c cs ih =>
    intro r
    have hstep : (if (isOverdue c now && c.status != "down") && (r.id == c.id)
        then setDown r else r).id = r.id := by
      by_cases hcond : ((isOverdue c now && c.status != "down") && (r.id == c.id)) = true
      · rw [if_pos hcond, setDown_id]
      · rw [if_neg hcond]
    by_cases hr : (r.id == c.id) = true
    · have hfilter : (c :: cs).filter (fun x => r.id == x.id)
          = c :: cs.filter (fun x => r.id == x.id) := by
        simp [List.filter_cons, hr]
      rw [rowFold_cons, hfilter, rowFold_cons, ih]
      have hfun : (fun x => (if (isOverdue c now && c.status != "down") && (r.id == c.id)
            then setDown r else r).id == x.id) = fun x : Check => r.id == x.id := by
        funext x
        rw [hstep]
      rw [hfun]
    · have hfilter : (c :: cs).filter (fun x => r.id == x.id)
          = cs.filter (fun x => r.id == x.id) := by
        simp [List.filter_cons, hr]
      rw [rowFold_cons, if_neg (by simp [hr]), hfilter, ih r]

/-- When ids are unique, the rows of the store that share an id with a
member row r, and additionally satisfy p, are exactly r itself (when p
holds of r) and nothing else. -/
theorem filter_key_eq (p : Check → Bool) : ∀ s : List Check,
    (s.map (fun c => c.id)).Nodup → ∀ r : Check, r ∈ s →
    s.filter (fun c => (r.id == c.id) && p c) = if p r then [r] else [] := by
  intro s
  induction s with
  | nil =>
    intro _ r hr
    exact absurd hr (List.not_mem_nil r)
  | cons a t ih =>
    intro h r hr
    rw [List.map_cons, List.nodup_cons] at h
    obtain ⟨ha, ht⟩ := h
    rcases List.mem_cons.mp hr with hra | hrt
    · subst hra
      have htnil : t.filter (fun c => (r.id == c.id) && p c) = [] := by
        rw [List.filter_eq_nil_iff]
        intro c hc hpc
        have hid : r.id = c.id := by
          have := (Bool.and_eq_true _ _).mp hpc
          exact eq_of_beq this.1
        exact ha (List.mem_map.mpr ⟨c, hc, hid.symm⟩)
      rw [List.filter_cons]
      by_cases hp : p r = true
      · rw [if_pos (by simp [hp]), htnil, if_pos hp]
      · have hp' : p r = false := by
          cases hval : p r with
          | false => rfl
          | true => exact absurd hval hp
        rw [if_neg (by simp [hp']), htnil, if_neg (by simp [hp'])]
    · have hne : (r.id == a.id) = false := by
        cases hval : (r.id == a.id) with
        | false => rfl
        | true =>
          exact absurd
            (List.mem_map.mpr ⟨r, hrt, eq_of_beq hval⟩) ha
      rw [List.filter_cons, if_neg (by simp [hne]), ih ht r hrt]

/-- When the ids in the store are unique, one engine cycle acts on the
store exactly as the per-check semantics stepCheck, row by row. -/
theorem runStatusChecks_eq_map (s : List Check) (now : Nat)
    (h : (s.map (fun c => c.id)).Nodup) :
    runStatusChecks s now = s.map (stepCheck now) := by
  unfold runStatusChecks
  rw [engine_fold_rows]
  apply List.map_congr_left
  intro r hr
  rw [rowFold_filter]
  unfold getAllActive
  rw [List.filter_filter, filter_key_eq (fun c => c.status != "maintenance") s h r hr]
  unfold stepCheck
  by_cases hm : (r.status != "maintenance") = true
  · rw [if_pos hm, rowFold_cons]
    show (if (isOverdue r now && r.status != "down") && (r.id == r.id) then setDown r else r) = _
    rw [beq_self_eq_true, Bool.and_true, hm, Bool.true_and]
  · have hm' : (r.status != "maintenance") = false := by
      cases hval : (r.status != "maintenance") with
      | false => rfl
      | true => exact absurd hval hm
    rw [if_neg hm, hm', Bool.false_and]
    rfl

/-- Looking a row up after an update that rewrites exactly the rows the
lookup matches, without changing which rows match, finds the updated
image of the row the lookup found before the update. -/
theorem find_update_pred (p : Check → Bool) (f : Check → Check)
    (hf : ∀ r, p (f r) = p r) : ∀ s : List Check,
    (s.map (fun r => if p r then f r else r)).find? p
      = match s.find? p with
        | none => none
        | some c => some (f c) := by
  intro s
  induction s with
  | nil => rfl
  | cons a t ih =>
    by_cases hp : p a = true
    · rw [List.map_cons, if_pos hp,
        List.find?_cons_of_pos _ (by rw [hf]; exact hp),
        List.find?_cons_of_pos _ hp]
    · rw [List.map_cons, if_neg hp, List.find?_cons_of_neg _ hp,
        List.find?_cons_of_neg _ hp, ih]

/-- A store in which a lookup finds a row has at least one matching row,
so the corresponding UPDATE touches at least one row. -/
theorem any_of_find (p : Check → Bool) (s : List Check) (c : Check)
    (h : s.find? p = some c) : s.any p = true := by
  rw [List.any_eq_true]
  exact ⟨c, List.mem_of_find?_eq_some h, List.find?_some h⟩

/-- A healthy check used as the concrete store row of the witnesses: it
was pinged at epoch second 1 and is long overdue at evaluation times in
the thousands of milliseconds. -/
def upCheck : Check :=
  { id := 1, uuid := "u", name := "n", schedule := "1s", grace := "0s",
    status := "up", last_ping_at := some 1, last_ping_duration_ms := none,
    consecutive_down_count := 0, created_at := 1, last_error := none }

/-- A check in maintenance mode used by the witnesses. -/
def maintCheck : Check :=
  { id := 2, uuid := "m", name := "m", schedule := "1s", grace := "0s",
    status := "maintenance", last_ping_at := some 3,
    last_ping_duration_ms := some 7, consecutive_down_count := 4,
    created_at := 1, last_error := some "old" }

/-- C1: on every Status Engine run over a store with unique ids, a
loaded check that is overdue and whose status is not down is written to
status down with consecutive_down_count incremented by exactly one; a
check already down is left exactly as it was; a check that is not
overdue is not mutated at all. -/
theorem engine_transition_rules (s : List Check) (now : Nat)
    (h : (s.map (fun c => c.id)).Nodup) (i : Nat) (r : Check)
    (hr : s[i]? = some r) :
    (r.status ≠ "maintenance" → isOverdue r now = true → r.status ≠ "down" →
      (runStatusChecks s now)[i]?
        = some { r with status := "down",
                        consecutive_down_count := r.consecutive_down_count + 1 })
    ∧ (r.status = "down" → (runStatusChecks s now)[i]? = some r)
    ∧ (isOverdue r now = false → (runStatusChecks s now)[i]? = some r) := by
  rw [runStatusChecks_eq_map s now h, List.getElem?_map, hr]
  refine ⟨?_, ?_, ?_⟩
  · intro hm hov hd
    simp [stepCheck, setDown, hm, hov, hd]
  · intro hd
    simp [stepCheck, hd]
  · intro hov
    simp [stepCheck, hov]

/-- Witness for C1: a single healthy check pinged at second 1 with a one
second schedule and no grace is marked down with counter 1 by the engine
run at millisecond 10000. -/
theorem engine_transition_rules_witness :
    (runStatusChecks [upCheck] 10000)[0]?
      = some { upCheck with status := "down", consecutive_down_count := 1 } :=
  (engine_transition_rules [upCheck] 10000 (by decide) 0 upCheck rfl).1
    (by decide) (by decide) (by decide)

/-- C2: for every check with a present reference time, the check is
overdue exactly when now exceeds the deadline, the deadline being the
reference time plus the parsed schedule plus the parsed grace; at now
equal to the deadline it is not overdue and at deadline plus one it is
overdue. -/
theorem overdue_iff_past_deadline (c : Check) (now : Nat)
    (h : referenceTime c ≠ 0) :
    (isOverdue c now = true
      ↔ referenceTime c + parseDuration c.schedule + parseDuration c.grace < now)
    ∧ isOverdue c (referenceTime c + parseDuration c.schedule + parseDuration c.grace) = false
    ∧ isOverdue c (referenceTime c + parseDuration c.schedule + parseDuration c.grace + 1)
        = true := by
  unfold isOverdue deadline
  simp [h]

/-- Witness for C2: the healthy check has reference time 1000, so with a
one second schedule and zero grace its deadline is exactly 2000. -/
theorem overdue_iff_past_deadline_witness :
    (isOverdue upCheck 5000 = true
      ↔ referenceTime upCheck + parseDuration upCheck.schedule + parseDuration upCheck.grace < 5000)
    ∧ isOverdue upCheck (referenceTime upCheck + parseDuration upCheck.schedule + parseDuration upCheck.grace) = false
    ∧ isOverdue upCheck (referenceTime upCheck + parseDuration upCheck.schedule + parseDuration upCheck.grace + 1)
        = true :=
  overdue_iff_past_deadline upCheck 5000 (by decide)

/-- Reference time exactly as claim C3 words it, spec side, for
comparison with the code's referenceTime: created_at whenever the status
is new, last_ping_at otherwise. -/
def claimReferenceTime (c : Check) : Nat :=
  if c.status == "new" then c.created_at * 1000
  else lastPingMs c.last_ping_at

/-- A new check whose created_at column is absent (zero) but whose
last_ping_at is set: the code falls back to the ping time instead of
treating the reference time as absent. -/
def newZeroCreated : Check :=
  { id := 3, uuid := "z", name := "z", schedule := "1s", grace := "0s",
    status := "new", last_ping_at := some 5, last_ping_duration_ms := none,
    consecutive_down_count := 0, created_at := 0, last_error := none }

/-- Counterexample to C3 as stated: for a new check the claim's
reference time is created_at, here absent (zero), so the claim promises
the check is never auto-marked down; yet the engine run at millisecond
7000 marks it down, because the code falls back to last_ping_at when
created_at is falsy. -/
theorem reference_time_counterexample :
    claimReferenceTime newZeroCreated = 0
    ∧ (runStatusChecks [newZeroCreated] 7000).map (fun c => c.status) = ["down"] := by
  decide

/-- C3 amended: the reference time is created_at when the status is new
and created_at is present (nonzero); otherwise, in particular when
created_at is absent, it is last_ping_at; whenever the reference time so
selected is absent (null or zero), the check is not overdue and an
engine run leaves it unchanged. -/
theorem reference_time_selection (c : Check) (now : Nat) :
    (c.status = "new" → c.created_at ≠ 0 → referenceTime c = c.created_at * 1000)
    ∧ (c.status ≠ "new" → referenceTime c = lastPingMs c.last_ping_at)
    ∧ (c.created_at = 0 → referenceTime c = lastPingMs c.last_ping_at)
    ∧ (referenceTime c = 0 → isOverdue c now = false ∧ runStatusChecks [c] now = [c]) := by
  refine ⟨?_, ?_, ?_, ?_⟩
  · intro h1 h2
    simp [referenceTime, h1, h2]
  · intro h
    simp [referenceTime, h]
  · intro h
    simp [referenceTime, h]
  · intro h
    have hov : isOverdue c now = false := by simp [isOverdue, h]
    refine ⟨hov, ?_⟩
    unfold runStatusChecks getAllActive
    by_cases hm : (c.status != "maintenance") = true
    · simp [List.filter_cons, hm, hov]
    · simp [List.filter_cons, hm]

/-- A check with no ping history whose status is not new: its reference
time is absent, so the engine can never evaluate it as overdue. -/
def noPingCheck : Check :=
  { id := 4, uuid := "p", name := "p", schedule := "1s", grace := "0s",
    status := "up", last_ping_at := none, last_ping_duration_ms := none,
    consecutive_down_count := 0, created_at := 9, last_error := none }

/-- Witness for the amended C3: a non-new check with no ping timestamp
has an absent reference time, is never overdue, and survives an engine
run unchanged. -/
theorem reference_time_selection_witness :
    referenceTime noPingCheck = lastPingMs noPingCheck.last_ping_at
    ∧ (isOverdue noPingCheck 9000 = false
        ∧ runStatusChecks [noPingCheck] 9000 = [noPingCheck]) :=
  ⟨(reference_time_selection noPingCheck 9000).2.1 (by decide),
   (reference_time_selection noPingCheck 9000).2.2.2 (by decide)⟩

/-- C4: a check in maintenance is excluded from the Status Engine's load
entirely, is left untouched by the engine run, and recordPing on a check
in maintenance leaves the store unchanged and returns the record with
every field unchanged. -/
theorem maintenance_never_touched (s : List Check) (now : Nat) (u : String)
    (dur : Option Nat) (h : (s.map (fun c => c.id)).Nodup) (i : Nat)
    (r : Check) (hr : s[i]? = some r) (hm : r.status = "maintenance")
    (c : Check) (hc : getCheckByUuid s u = some c)
    (hcm : c.status = "maintenance") :
    r ∉ getAllActive s
    ∧ (runStatusChecks s now)[i]? = some r
    ∧ recordPing s u dur now = (s, some c) := by
  refine ⟨?_, ?_, ?_⟩
  · intro hmem
    have := (List.mem_filter.mp hmem).2
    simp [hm] at this
  · rw [runStatusChecks_eq_map s now h, List.getElem?_map, hr]
    simp [stepCheck, hm]
  · simp [recordPing, hc, hcm]

/-- Witness for C4: the maintenance check is not loaded, not touched by
the engine at millisecond 9999, and a ping against its token is a
no-op. -/
theorem maintenance_never_touched_witness :
    maintCheck ∉ getAllActive [maintCheck]
    ∧ (runStatusChecks [maintCheck] 9999)[0]? = some maintCheck
    ∧ recordPing [maintCheck] "m" (some 5) 9999 = ([maintCheck], some maintCheck) :=
  maintenance_never_touched [maintCheck] 9999 "m" (some 5) (by decide) 0
    maintCheck rfl rfl maintCheck (by decide) rfl

/-- C5: recordPing on an existing check that is not in maintenance
returns the record updated to status up, last_ping_at now,
last_ping_duration_ms as supplied, counter zero and last_error cleared,
with every other field unchanged, and the store afterwards holds exactly
that record under the token. -/
theorem ping_updates_record (s : List Check) (u : String) (dur : Option Nat)
    (now : Nat) (c : Check) (hc : getCheckByUuid s u = some c)
    (hm : c.status ≠ "maintenance") :
    (recordPing s u dur now).2
      = some { c with status := "up", last_ping_at := some now,
                      last_ping_duration_ms := dur,
                      consecutive_down_count := 0, last_error := none }
    ∧ getCheckByUuid (recordPing s u dur now).1 u
      = some { c with status := "up", last_ping_at := some now,
                      last_ping_duration_ms := dur,
                      consecutive_down_count := 0, last_error := none } := by
  have hbm : (c.status == "maintenance") = false := by simp [hm]
  have hany : s.any (fun r => r.uuid == u) = true := any_of_find _ s c hc
  have hupd := find_update_pred (fun r => r.uuid == u) (pingUpdate now dur)
    (fun r => rfl) s
  rw [show s.find? (fun r => r.uuid == u) = some c from hc] at hupd
  have hrec : recordPing s u dur now
      = (s.map (fun r => if r.uuid == u then pingUpdate now dur r else r),
         if s.any (fun r => r.uuid == u) then
           getCheckByUuid (s.map (fun r => if r.uuid == u then pingUpdate now dur r else r)) u
         else none) := by
    unfold recordPing
    rw [hc]
    dsimp only
    rw [if_neg (by simp [hbm])]
  constructor
  · rw [hrec]
    dsimp only
    rw [if_pos hany]
    exact hupd
  · rw [hrec]
    dsimp only
    exact hupd

/-- Witness for C5: pinging the healthy check with duration 7 at second
42 returns it as up with the ping fields refreshed, and the store agrees. -/
theorem ping_updates_record_witness :
    (recordPing [upCheck] "u" (some 7) 42).2
      = some { upCheck with status := "up", last_ping_at := some 42,
                            last_ping_duration_ms := some 7,
                            consecutive_down_count := 0, last_error := none }
    ∧ getCheckByUuid (recordPing [upCheck] "u" (some 7) 42).1 "u"
      = some { upCheck with status := "up", last_ping_at := some 42,
                            last_ping_duration_ms := some 7,
                            consecutive_down_count := 0, last_error := none } :=
  ping_updates_record [upCheck] "u" (some 7) 42 upCheck (by decide) (by decide)

/-- C9: recordPing with a token that resolves to no check returns no
record and leaves the store exactly as it was. -/
theorem ping_unknown_token (s : List Check) (u : String) (dur : Option Nat)
    (now : Nat) (h : getCheckByUuid s u = none) :
    recordPing s u dur now = (s, none) := by
  unfold recordPing
  rw [h]

/-- Witness for C9: pinging an unknown token against the one-check store
changes nothing and returns nothing. -/
theorem ping_unknown_token_witness :
    recordPing [upCheck] "zzz" none 5 = ([upCheck], none) :=
  ping_unknown_token [upCheck] "zzz" none 5 (by decide)

/-- C7: recordFailure on an existing check unconditionally sets status
failed, last_ping_at to now, last_error to the reason and the counter to
zero, with no hypothesis on the check's current status, so in particular
also for a check in maintenance; the store afterwards holds exactly that
record under the token. -/
theorem failure_overrides_all (s : List Check) (u : String)
    (reason : Option String) (now : Nat) (c : Check)
    (hc : getCheckByUuid s u = some c) :
    (recordFailure s u reason now).2
      = some { c with status := "failed", last_ping_at := some now,
                      last_error := reason, consecutive_down_count := 0 }
    ∧ getCheckByUuid (recordFailure s u reason now).1 u
      = some { c with status := "failed", last_ping_at := some now,
                      last_error := reason, consecutive_down_count := 0 } := by
  have hany : s.any (fun r => r.uuid == u) = true := any_of_find _ s c hc
  have hupd := find_update_pred (fun r => r.uuid == u) (failUpdate now reason)
    (fun r => rfl) s
  rw [show s.find? (fun r => r.uuid == u) = some c from hc] at hupd
  constructor
  · unfold recordFailure
    dsimp only
    rw [if_pos hany]
    exact hupd
  · unfold recordFailure
    dsimp only
    exact hupd

/-- Witness for C7, the concrete scenario of the spec: a failure report
with reason manual against the maintenance check marks it failed with
that error recorded, bypassing the maintenance guard. -/
theorem failure_overrides_all_witness :
    (recordFailure [maintCheck] "m" (some "manual") 99).2
      = some { maintCheck with status := "failed", last_ping_at := some 99,
                               last_error := some "manual",
                               consecutive_down_count := 0 }
    ∧ getCheckByUuid (recordFailure [maintCheck] "m" (some "manual") 99).1 "m"
      = some { maintCheck with status := "failed", last_ping_at := some 99,
                               last_error := some "manual",
                               consecutive_down_count := 0 } :=
  failure_overrides_all [maintCheck] "m" (some "manual") 99 maintCheck (by decide)

/-- toggleMaintenance always resolves, for a found check, to the status
rewrite of every row carrying the token together with the lookup of the
first such row. -/
theorem toggle_found (s : List Check) (u : String) (c : Check)
    (hc : getCheckByUuid s u = some c) :
    toggleMaintenance s u
      = (s.map (fun r => if r.uuid == u then { r with status := toggleTarget c } else r),
         some { c with status := toggleTarget c }) := by
  have hupd := find_update_pred (fun r => r.uuid == u)
    (fun r => { r with status := toggleTarget c }) (fun r => rfl) s
  rw [show s.find? (fun r => r.uuid == u) = some c from hc] at hupd
  unfold toggleMaintenance
  rw [hc]
  dsimp only
  rw [show getCheckByUuid
      (s.map (fun r => if r.uuid == u then { r with status := toggleTarget c } else r)) u
      = some { c with status := toggleTarget c } from hupd]

/-- C8: on an existing check that is not in maintenance, one
toggleMaintenance returns the check with only its status changed to
maintenance, and a second toggleMaintenance returns the check with only
its status changed, to up when last_ping_at is set (nonzero) and to new
when it is absent — so every other field, counters included, survives
the round trip. -/
theorem toggle_maintenance_round_trip (s : List Check) (u : String)
    (c : Check) (hc : getCheckByUuid s u = some c)
    (hm : c.status ≠ "maintenance") :
    (toggleMaintenance s u).2 = some { c with status := "maintenance" }
    ∧ ((∃ v, c.last_ping_at = some v ∧ v ≠ 0) →
        (toggleMaintenance (toggleMaintenance s u).1 u).2
          = some { c with status := "up" })
    ∧ ((c.last_ping_at = none ∨ c.last_ping_at = some 0) →
        (toggleMaintenance (toggleMaintenance s u).1 u).2
          = some { c with status := "new" }) := by
  have hbm : (c.status == "maintenance") = false := by simp [hm]
  have htc : toggleTarget c = "maintenance" := by
    unfold toggleTarget
    rw [if_neg (by simp [hbm])]
  have h1 := toggle_found s u c hc
  rw [htc] at h1
  have hc2 : getCheckByUuid (toggleMaintenance s u).1 u
      = some { c with status := "maintenance" } := by
    rw [h1]
    have hupd := find_update_pred (fun r => r.uuid == u)
      (fun r => { r with status := "maintenance" }) (fun r => rfl) s
    rw [show s.find? (fun r => r.uuid == u) = some c from hc] at hupd
    exact hupd
  have h2 := toggle_found (toggleMaintenance s u).1 u
    { c with status := "maintenance" } hc2
  refine ⟨by rw [h1], ?_, ?_⟩
  · rintro ⟨v, hv, hvne⟩
    have htr : toggleTarget { c with status := "maintenance" } = "up" := by
      unfold toggleTarget
      rw [if_pos (by simp)]
      rw [if_pos (by simp [truthyNat, hv, hvne])]
    rw [h2, htr]
  · intro hv
    have htr : toggleTarget { c with status := "maintenance" } = "new" := by
      unfold toggleTarget
      rw [if_pos (by simp)]
      rcases hv with hv | hv
      · rw [if_neg (by simp [truthyNat, hv])]
      · rw [if_neg (by simp [truthyNat, hv])]
    rw [h2, htr]

/-- Witness for C8: the healthy check (pinged at second 1) enters
maintenance on the first toggle and comes back as up with all other
fields intact on the second. -/
theorem toggle_maintenance_round_trip_witness :
    (toggleMaintenance [upCheck] "u").2 = some { upCheck with status := "maintenance" }
    ∧ (toggleMaintenance (toggleMaintenance [upCheck] "u").1 "u").2
        = some { upCheck with status := "up" } :=
  ⟨(toggle_maintenance_round_trip [upCheck] "u" upCheck (by decide) (by decide)).1,
   (toggle_maintenance_round_trip [upCheck] "u" upCheck (by decide) (by decide)).2.1
     ⟨1, rfl, by decide⟩⟩

/-- C10: the setCheckDown write keeps the store's length, rewrites the
row carrying the targeted id to the same record with only status down
and the counter incremented, and leaves every row with a different id
exactly as it was. -/
theorem setdown_frame (s : List Check) (i j : Nat) (r : Check)
    (hr : s[j]? = some r) :
    (setCheckDown s i).1.length = s.length
    ∧ (r.id = i → (setCheckDown s i).1[j]?
        = some { r with status := "down",
                        consecutive_down_count := r.consecutive_down_count + 1 })
    ∧ (r.id ≠ i → (setCheckDown s i).1[j]? = some r) := by
  rw [setCheckDown_fst]
  refine ⟨List.length_map _ _, ?_, ?_⟩
  · intro h
    rw [List.getElem?_map, hr, Option.map_some']
    rw [if_pos (by simp [h])]
    rfl
  · intro h
    rw [List.getElem?_map, hr, Option.map_some']
    rw [if_neg (by simp [h])]

/-- Witness for C10: in a two-row store, marking id 1 down rewrites only
the first row's status and counter and leaves the maintenance row (id 2)
untouched. -/
theorem setdown_frame_witness :
    ((setCheckDown [upCheck, maintCheck] 1).1.length = [upCheck, maintCheck].length
      ∧ (setCheckDown [upCheck, maintCheck] 1).1[0]?
          = some { upCheck with status := "down", consecutive_down_count := 1 })
    ∧ (setCheckDown [upCheck, maintCheck] 1).1[1]? = some maintCheck :=
  ⟨⟨(setdown_frame [upCheck, maintCheck] 1 0 upCheck rfl).1,
    (setdown_frame [upCheck, maintCheck] 1 0 upCheck rfl).2.1 rfl⟩,
   (setdown_frame [upCheck, maintCheck] 1 1 maintCheck rfl).2.2 (by decide)⟩

/-- A run of digit characters followed by a suffix whose first character
is not a digit splits exactly at the boundary under takeWhile and
dropWhile with the digit test. -/
theorem takeWhile_digits_append (ds us : List Char)
    (hds : ∀ ch ∈ ds, ch.isDigit = true)
    (hus : ∀ ch, us.head? = some ch → ch.isDigit = false) :
    (ds ++ us).takeWhile (fun ch => ch.isDigit) = ds
    ∧ (ds ++ us).dropWhile (fun ch => ch.isDigit) = us := by
  induction ds with
  | nil =>
    rw [List.nil_append]
    cases us with
    | nil => exact ⟨rfl, rfl⟩
    | cons a t =>
      have ha := hus a rfl
      rw [List.takeWhile_cons, List.dropWhile_cons]
      constructor <;> simp [ha]
  | cons d t ih =>
    have hd : d.isDigit = true := hds d (List.mem_cons_self d t)
    have iht := ih (fun ch hch => hds ch (List.mem_cons_of_mem d hch))
    rw [List.cons_append, List.takeWhile_cons, List.dropWhile_cons]
    constructor <;> simp [hd, iht.1, iht.2]

/-- A nonempty digit run followed by one of the five unit suffixes is
accepted by the duration pattern with exactly those two capture groups. -/
theorem matchDuration_wellformed (ds us : List Char) (hne : ds ≠ [])
    (hdig : ∀ ch ∈ ds, ch.isDigit = true)
    (hhead : ∀ ch, us.head? = some ch → ch.isDigit = false)
    (hunit : (us == ['m', 's'] || us == ['s'] || us == ['m']
      || us == ['h'] || us == ['d']) = true) :
    matchDuration (String.mk (ds ++ us)) = some (ds, us) := by
  obtain ⟨ht, hd⟩ := takeWhile_digits_append ds us hdig hhead
  unfold matchDuration
  dsimp only [String.toList]
  rw [ht, hd, if_neg (by simp [List.isEmpty_iff]; exact hne), if_pos hunit]

/-- C6: parseDuration maps every string consisting of a nonempty digit
run followed by one of the five unit suffixes to its value times the
unit factor in milliseconds; every string admitting no such
decomposition (wrong unit, non-numeric, empty, negative) yields 0; and a
non-string input yields 0 through the typeof guard — the function is
total, so no input raises. -/
theorem parseDuration_spec :
    (∀ ds us : List Char, ds ≠ [] → (∀ ch ∈ ds, ch.isDigit = true) →
      us ∈ unitSuffixes →
      parseDuration (String.mk (ds ++ us)) = digitsVal ds * unitFactor (String.mk us))
    ∧ (∀ s : String,
      (¬ ∃ ds us : List Char, s.toList = ds ++ us ∧ ds ≠ []
        ∧ (∀ ch ∈ ds, ch.isDigit = true) ∧ us ∈ unitSuffixes) →
      parseDuration s = 0)
    ∧ parseDurationJS none = 0 := by
  refine ⟨?_, ?_, rfl⟩
  · intro ds us hne hdig hu
    fin_cases hu
    · have hmatch := matchDuration_wellformed ds ['m', 's'] hne hdig
        (by intro ch hch; injection hch with h2; subst h2; decide) (by decide)
      unfold parseDuration
      rw [hmatch]
      show digitsVal ds = digitsVal ds * unitFactor (String.mk ['m', 's'])
      rw [show unitFactor (String.mk ['m', 's']) = 1 from rfl]
      omega
    · have hmatch := matchDuration_wellformed ds ['s'] hne hdig
        (by intro ch hch; injection hch with h2; subst h2; decide) (by decide)
      unfold parseDuration
      rw [hmatch]
      show digitsVal ds * 1000 = digitsVal ds * unitFactor (String.mk ['s'])
      rw [show unitFactor (String.mk ['s']) = 1000 from rfl]
    · have hmatch := matchDuration_wellformed ds ['m'] hne hdig
        (by intro ch hch; injection hch with h2; subst h2; decide) (by decide)
      unfold parseDuration
      rw [hmatch]
      show digitsVal ds * 60 * 1000 = digitsVal ds * unitFactor (String.mk ['m'])
      rw [show unitFactor (String.mk ['m']) = 60000 from rfl]
      omega
    · have hmatch := matchDuration_wellformed ds ['h'] hne hdig
        (by intro ch hch; injection hch with h2; subst h2; decide) (by decide)
      unfold parseDuration
      rw [hmatch]
      show digitsVal ds * 60 * 60 * 1000 = digitsVal ds * unitFactor (String.mk ['h'])
      rw [show unitFactor (String.mk ['h']) = 3600000 from rfl]
      omega
    · have hmatch := matchDuration_wellformed ds ['d'] hne hdig
        (by intro ch hch; injection hch with h2; subst h2; decide) (by decide)
      unfold parseDuration
      rw [hmatch]
      show digitsVal ds * 24 * 60 * 60 * 1000 = digitsVal ds * unitFactor (String.mk ['d'])
      rw [show unitFactor (String.mk ['d']) = 86400000 from rfl]
      omega
  · intro s hno
    by_cases h1 : ((s.toList.takeWhile (fun ch => ch.isDigit)).isEmpty = true)
    · have hm : matchDuration s = none := by
        unfold matchDuration
        rw [if_pos h1]
      unfold parseDuration
      rw [hm]
    · by_cases h2 : ((s.toList.dropWhile (fun ch => ch.isDigit) == ['m', 's']
          || s.toList.dropWhile (fun ch => ch.isDigit) == ['s']
          || s.toList.dropWhile (fun ch => ch.isDigit) == ['m']
          || s.toList.dropWhile (fun ch => ch.isDigit) == ['h']
          || s.toList.dropWhile (fun ch => ch.isDigit) == ['d']) = true)
      · exfalso
        apply hno
        refine ⟨s.toList.takeWhile (fun ch => ch.isDigit),
          s.toList.dropWhile (fun ch => ch.isDigit),
          (List.takeWhile_append_dropWhile _ _).symm, ?_, ?_, ?_⟩
        · intro hnil
          exact h1 (by rw [hnil]; rfl)
        · intro ch hch
          exact List.mem_takeWhile_imp hch
        · simp only [Bool.or_eq_true, beq_iff_eq] at h2
          rcases h2 with ((((h2 | h2) | h2) | h2) | h2) <;>
            rw [h2] <;> simp [unitSuffixes]
      · have hm : matchDuration s = none := by
          unfold matchDuration
          rw [if_neg h1, if_neg h2]
        unfold parseDuration
        rw [hm]

/-- Witness for C6: the string 10m parses to 600000 milliseconds, the
malformed empty string parses to 0, and a non-string input parses to 0. -/
theorem parseDuration_spec_witness :
    parseDuration "10m" = 600000
    ∧ parseDuration "" = 0
    ∧ parseDurationJS none = 0 := by
  refine ⟨?_, ?_, parseDuration_spec.2.2⟩
  · have h := parseDuration_spec.1 ['1', '0'] ['m'] (by decide) (by decide) (by decide)
    exact h.trans (by decide)
  · refine parseDuration_spec.2.1 "" ?_
    rintro ⟨ds, us, heq, hne, -, -⟩
    exact hne (List.append_eq_nil.mp heq.symm).1

end Pulse
